import Mathlib

/-!
Verification of the daily GitHub activity emailer in
`scripts/commit_reminder.py`, as a shallow embedding in Lean.

Modelling conventions, stated once:

* Python strings are `String`; `str.lower()` maps `Char.toLower` over the
  characters (the commit patterns in question are all ASCII); `str.strip()`
  removes the ASCII whitespace characters from both ends; `s in t` is
  contiguous-substring containment; `s.split('\n')[0]` is the text before the
  first newline.
* Nepal's timezone (`Asia/Kathmandu`) has had a fixed UTC offset and no
  daylight-saving transitions for the period the script can run in, so a
  timezone-aware datetime is modelled two ways, matching the two uses in the
  script: as civil-calendar attributes of the current day
  (`NepalDate`: month, day of month, weekday) for the holiday/weekend checks,
  and as a point on a timeline (`NepalInstant`: a civil-day index plus the
  microsecond within that day) for the "yesterday" window arithmetic, where
  `datetime - timedelta(days=1)` moves exactly one civil day back and
  `datetime.replace` sets the time of day.
* GitHub API calls are oracles embedded as data: each call site carries an
  `Except String` value, `.error` meaning the call raised an exception and
  `.ok` the value it returned.  Records returned by the API (`Commit`,
  `SearchItem`) carry the fields the script reads.
* The Python `dict` keyed by repository name is an association list with
  `dictInsert` (replace the value if the key is present, append otherwise);
  the Python `set` is a duplicate-free list with `addSet`.
* `random.choice` is embedded by passing the random draw as an extra argument
  (an index reduced modulo the list length).
* `os.environ.get` yields `Option String`; Python truthiness of the result is
  `truthy` (absent or empty string is falsy).
* `sys.exit(1)` / normal return are an exit code in the result record;
  `print` calls that report an error set its `errorPrinted` flag.
-/

namespace CommitReminder

/-! ## String helpers (Python string operations) -/

/-- Characters removed by Python `str.strip()` with no argument (ASCII part). -/
def isSpaceChar (c : Char) : Bool :=
  c == ' ' || c == '\t' || c == '\n' || c == '\r' || c == '\x0b' || c == '\x0c'

/-- Python `str.strip()` on a character list: drop whitespace from both ends. -/
def stripList (l : List Char) : List Char :=
  ((l.dropWhile isSpaceChar).reverse.dropWhile isSpaceChar).reverse

/-- Python `str.lower()` on a character list. -/
def lowerList (l : List Char) : List Char :=
  l.map Char.toLower

/-- Python `pat in hay` for strings: contiguous-substring containment. -/
def listHasSub (pat : List Char) : List Char → Bool
  | [] => pat.isEmpty
  | c :: t => pat.isPrefixOf (c :: t) || listHasSub pat (t)

/-- Substring containment on `String` (Python `pat in hay`). -/
def strContainsSub (hay pat : String) : Bool :=
  listHasSub pat.toList hay.toList

/-- Python `s.split('\n')[0]`: the text before the first newline. -/
def firstLine (s : String) : String :=
  (s.toList.takeWhile (fun c => !(c == '\n'))).asString

/-! ## Module constants of the script -/

/-- NEPALI_HOLIDAYS: the hard-coded holiday table, keyed by (month, day). -/
def NEPALI_HOLIDAYS : List ((Nat × Nat) × String) :=
  [((1, 1), "New Year's Day"),
   ((1, 15), "Maghe Sankranti"),
   ((2, 19), "Democracy Day"),
   ((3, 8), "International Women's Day"),
   ((4, 14), "Nepali New Year"),
   ((5, 1), "Labour Day"),
   ((5, 29), "Republic Day"),
   ((8, 20), "Constitution Day"),
   ((10, 1), "Dashain Start"),
   ((10, 10), "Dashain End"),
   ((10, 25), "Tihar Start"),
   ((11, 2), "Tihar End"),
   ((12, 25), "Christmas")]

/-- MOTIVATIONAL_QUOTES: the fixed list the no-activity email draws from. -/
def MOTIVATIONAL_QUOTES : List String :=
  ["Code is like humor. When you have to explain it, it's bad. - Cory House",
   "First, solve the problem. Then, write the code. - John Johnson",
   "Experience is the name everyone gives to their mistakes. - Oscar Wilde",
   "In order to be irreplaceable, one must always be different. - Coco Chanel",
   "Java is to JavaScript what car is to Carpet. - Chris Heilmann",
   "Knowledge is power. - Francis Bacon",
   "Sometimes it pays to stay in bed on Monday, rather than spending the rest of the week debugging Monday's code. - Dan Salomon",
   "Perfection is achieved not when there is nothing more to add, but rather when there is nothing more to take away. - Antoine de Saint-Exupery",
   "Ruby is rubbish! PHP is phpantastic! - Nikita Popov",
   "Code never lies, comments sometimes do. - Ron Jeffries",
   "Simplicity is the ultimate sophistication. - Leonardo da Vinci",
   "Make it work, make it right, make it fast. - Kent Beck",
   "Clean code always looks like it was written by someone who cares. - Robert C. Martin",
   "Any fool can write code that a computer can understand. Good programmers write code that humans can understand. - Martin Fowler",
   "Programming isn't about what you know; it's about what you can figure out. - Chris Pine",
   "The best error message is the one that never shows up. - Thomas Fuchs",
   "A ship in harbor is safe, but that is not what ships are built for. - John A. Shedd",
   "Progress, not perfection. - Anonymous",
   "Every expert was once a beginner. - Helen Hayes",
   "The journey of a thousand miles begins with one step. - Lao Tzu"]

/-- AUTOMATED_COMMIT_PATTERNS: substrings marking automated commits. -/
def AUTOMATED_COMMIT_PATTERNS : List String :=
  ["automated", "auto-commit", "bot commit", "github-actions",
   "dependabot", "renovate", "merge pull request", "bump version",
   "update dependencies", "auto-generated", "ci:", "[bot]", "workflow:"]

/-- is_automated_commit: lowercase and strip the message, then test whether any
pattern (lowercased) occurs in it as a substring. -/
def is_automated_commit (commit_message : String) : Bool :=
  let message_lower := stripList (lowerList commit_message.toList)
  AUTOMATED_COMMIT_PATTERNS.any (fun pattern => listHasSub (lowerList pattern.toList) message_lower)

/-! ## Dates in Nepal -/

/-- Civil attributes of a moment in Nepal time: month, day of month, and
Python's `weekday()` (Monday = 0 … Sunday = 6).  `astimezone(NEPAL_TZ)` on a
value already in Nepal time is the identity, so the checks below read the
fields directly. -/
structure NepalDate where
  month : Nat
  dom : Nat
  wkday : Nat
deriving DecidableEq, Repr

/-- is_nepali_holiday: look the (month, day) key up in the holiday table;
returns the pair the Python function returns. -/
def is_nepali_holiday (date : NepalDate) : Bool × Option String :=
  let holiday_key := (date.month, date.dom)
  ((NEPALI_HOLIDAYS.map Prod.fst).contains holiday_key, NEPALI_HOLIDAYS.lookup holiday_key)

/-- is_weekend_in_nepal: Saturday (`weekday() == 5`) is the weekend. -/
def is_weekend_in_nepal (date : NepalDate) : Bool :=
  date.wkday == 5

/-- A moment on the Nepal-time timeline: the index of its civil day (any fixed
epoch; the offset to UTC is constant so civil days are uniform 24-hour spans)
and the microsecond within that day. -/
structure NepalInstant where
  day : Int
  usec : Nat
deriving DecidableEq, Repr

/-- Microseconds in one civil day. -/
def usecPerDay : Nat := 86400000000

/-- `datetime - timedelta(days=1)` in a fixed-offset timezone: one civil day
back, same time of day. -/
def subOneDay (t : NepalInstant) : NepalInstant :=
  ⟨t.day - 1, t.usec⟩

/-- `datetime.replace(hour, minute, second, microsecond)`: same civil day, the
given time of day. -/
def replaceTime (t : NepalInstant) (hour minute second microsecond : Nat) : NepalInstant :=
  ⟨t.day, ((hour * 60 + minute) * 60 + second) * 1000000 + microsecond⟩

/-- yesterday_start as computed at the top of get_user_activity_yesterday:
`(now_nepal - timedelta(days=1)).replace(hour=0, minute=0, second=0, microsecond=0)`. -/
def yesterday_start (now_nepal : NepalInstant) : NepalInstant :=
  replaceTime (subOneDay now_nepal) 0 0 0 0

/-- yesterday_end: `yesterday_start.replace(hour=23, minute=59, second=59)`;
the microsecond field is kept from yesterday_start. -/
def yesterday_end (now_nepal : NepalInstant) : NepalInstant :=
  replaceTime (yesterday_start now_nepal) 23 59 59 ((yesterday_start now_nepal).usec % 1000000)

/-- Absolute position of an instant, in microseconds from the epoch (the fixed
offset to UTC cancels in every difference). -/
def absUsec (t : NepalInstant) : Int :=
  t.day * (usecPerDay : Int) + (t.usec : Int)

/-! ## GitHub data, as seen through the API calls the script makes -/

/-- One commit as returned by `repo.get_commits(...)`. -/
structure Commit where
  message : String
  sha : String
  html_url : String
deriving DecidableEq, Repr

/-- One repository from `user.get_repos(type='all', sort='updated')`.
`collabPerm` embeds the `repo.get_collaborator_permission(username)` call,
`commitsResult` the `repo.get_commits(author=…, since=…, until=…)` call. -/
structure Repo where
  name : String
  ownerLogin : String
  collabPerm : Except String String
  commitsResult : Except String (List Commit)

/-- One item from `github_client.search_issues(...)` (a PR or an issue). -/
structure SearchItem where
  title : String
  repoName : String
  html_url : String
  state : String
deriving DecidableEq, Repr

/-- The GitHub client: the three top-level query results the script reads.
`reposResult` covers `get_user(username)` together with `get_repos`. -/
structure GithubClient where
  reposResult : Except String (List Repo)
  prSearch : Except String (List SearchItem)
  issueSearch : Except String (List SearchItem)

/-- A commit entry stored in the summary (first message line, 8-char sha, url). -/
structure CommitEntry where
  message : String
  sha : String
  url : String
deriving DecidableEq, Repr

/-- A pull-request or issue entry stored in the summary. -/
structure ItemEntry where
  title : String
  repo : String
  url : String
  state : String
deriving DecidableEq, Repr

/-- The activity_summary dict as returned (repositories_touched already
collapsed to its length, as done on the last line of the function). -/
structure ActivitySummary where
  date : String
  commits : List (String × List CommitEntry)
  pull_requests : List ItemEntry
  issues : List ItemEntry
  total_commits : Nat
  total_prs : Nat
  total_issues : Nat
  total_reviews : Nat
  repositories_touched : Nat
deriving DecidableEq, Repr

/-- The activity_summary dict while it is being filled: `touched` is still the
Python set of repository names. -/
structure ActivityAcc where
  date : String
  commits : List (String × List CommitEntry)
  pull_requests : List ItemEntry
  issues : List ItemEntry
  total_commits : Nat
  total_prs : Nat
  total_issues : Nat
  total_reviews : Nat
  touched : List String
deriving DecidableEq, Repr

/-- Python `set.add`: no effect when the element is present. -/
def addSet (s : List String) (x : String) : List String :=
  if s.contains x then s else s ++ [x]

/-- Python `dict` assignment `d[k] = v`: replace in place if the key is
present, append otherwise. -/
def dictInsert (d : List (String × List CommitEntry)) (k : String) (v : List CommitEntry) :
    List (String × List CommitEntry) :=
  if (d.map Prod.fst).contains k then
    d.map (fun p => if p.1 == k then (k, v) else p)
  else d ++ [(k, v)]

/-- The freshly initialised activity_summary (lines 98-109 of the script). -/
def initAcc (dateStr : String) : ActivityAcc :=
  ⟨dateStr, [], [], [], 0, 0, 0, 0, []⟩

/-- The guard on line 120: `repo.owner.login == username or
repo.get_collaborator_permission(username) in ['admin', 'write']`, with
Python's short-circuit `or` (the permission call is not made for own repos);
`.error` when the permission call raises. -/
def permCheck (username : String) (repo : Repo) : Except String Bool :=
  if repo.ownerLogin == username then Except.ok true
  else
    match repo.collabPerm with
    | Except.error e => Except.error e
    | Except.ok p => Except.ok (p == "admin" || p == "write")

/-- The body of the `for commit in commits` loop (lines 132-145): skip
automated commits, else append an entry and bump the counters. -/
def commitStep (repoName : String) (p : List CommitEntry × ActivityAcc) (commit : Commit) :
    List CommitEntry × ActivityAcc :=
  let commit_message := firstLine commit.message
  if is_automated_commit commit_message then p
  else
    (p.1 ++ [⟨commit_message, commit.sha.take 8, commit.html_url⟩],
     { p.2 with
        total_commits := p.2.total_commits + 1,
        touched := addSet p.2.touched repoName })

/-- The body of the `for repo in repos` loop (lines 117-152): the permission
guard, the commit loop, and the `if repo_commits` dict assignment; the
per-repository `try/except` turns any raised call into "skip this repo". -/
def processRepo (username : String) (acc : ActivityAcc) (repo : Repo) : ActivityAcc :=
  match permCheck username repo with
  | Except.error _ => acc
  | Except.ok false => acc
  | Except.ok true =>
    match repo.commitsResult with
    | Except.error _ => acc
    | Except.ok commits =>
      let r := commits.foldl (commitStep repo.name) ([], acc)
      if r.1.isEmpty then r.2
      else { r.2 with commits := dictInsert r.2.commits repo.name r.1 }

/-- The body of the `for pr in prs` loop (lines 158-166). -/
def addPullRequest (acc : ActivityAcc) (pr : SearchItem) : ActivityAcc :=
  { acc with
     pull_requests := acc.pull_requests ++ [⟨pr.title, pr.repoName, pr.html_url, pr.state⟩],
     total_prs := acc.total_prs + 1,
     touched := addSet acc.touched pr.repoName }

/-- The body of the `for issue in issues` loop (lines 172-180). -/
def addIssue (acc : ActivityAcc) (issue : SearchItem) : ActivityAcc :=
  { acc with
     issues := acc.issues ++ [⟨issue.title, issue.repoName, issue.html_url, issue.state⟩],
     total_issues := acc.total_issues + 1,
     touched := addSet acc.touched issue.repoName }

/-- The last line of the function:
`activity_summary['repositories_touched'] = len(activity_summary['repositories_touched'])`. -/
def finalize (acc : ActivityAcc) : ActivitySummary :=
  ⟨acc.date, acc.commits, acc.pull_requests, acc.issues, acc.total_commits,
   acc.total_prs, acc.total_issues, acc.total_reviews, acc.touched.length⟩

/-- get_user_activity_yesterday, lines 98-186.  The outer `try/except` wraps
the repository listing, the repository loop, the PR search and the issue
search: a raised query ends the `try` body there, keeping everything already
written into the summary, and the function still returns it.  `dateStr` is
`yesterday_start.strftime('%Y-%m-%d')`, threaded in as the calendar rendering
is not modelled. -/
def get_user_activity_yesterday (github_client : GithubClient) (username : String)
    (dateStr : String) : ActivitySummary :=
  let acc0 := initAcc dateStr
  match github_client.reposResult with
  | Except.error _ => finalize acc0
  | Except.ok repos =>
    let acc1 := repos.foldl (processRepo username) acc0
    match github_client.prSearch with
    | Except.error _ => finalize acc1
    | Except.ok prs =>
      let acc2 := prs.foldl addPullRequest acc1
      match github_client.issueSearch with
      | Except.error _ => finalize acc2
      | Except.ok issues => finalize (issues.foldl addIssue acc2)

/-! ## Email generation (generate_html_email, lines 188-351) -/

/-- The subject of the activity-summary email (line 198). -/
def subjectActivity (date : String) : String :=
  "ğŸ‰ Your GitHub Activity Summary - " ++ date

/-- The subject of the motivational email (line 296). -/
def subjectMotivation (date : String) : String :=
  "ğŸ’ª Daily Motivation - " ++ date

/-- One `<li>` of the commits section (lines 209-214). -/
def commitLiHtml (commit : CommitEntry) : String :=
  "\n                    <li style=\"margin-bottom: 8px;\">\n                        <strong>" ++
  commit.sha ++ "</strong>: " ++ commit.message ++
  "\n                        <br><a href=\"" ++ commit.url ++
  "\" style=\"color: #0366d6; font-size: 12px;\">View commit</a>\n                    </li>\n                "

/-- One repository block of the commits section (lines 202-215). -/
def repoCommitsHtml (p : String × List CommitEntry) : String :=
  "\n            <div style=\"margin-bottom: 20px; padding: 15px; background-color: #f8f9fa; border-radius: 8px;\">\n                <h3 style=\"color: #0366d6; margin: 0 0 10px 0;\">ğŸ“‚ " ++
  p.1 ++ "</h3>\n                <ul style=\"margin: 0; padding-left: 20px;\">\n            " ++
  String.join (p.2.map commitLiHtml) ++ "</ul></div>"

/-- commits_html: built by appending a block per repository in the dict. -/
def commitsHtml (commits : List (String × List CommitEntry)) : String :=
  String.join (commits.map repoCommitsHtml)

/-- One pull-request block (lines 222-228). -/
def prBlockHtml (pr : ItemEntry) : String :=
  "\n                <div style=\"margin-bottom: 10px; padding: 10px; background-color: #f0f8e8; border-radius: 5px;\">\n                    <strong>" ++
  pr.repo ++ "</strong>: " ++ pr.title ++
  " \n                    <span style=\"background-color: #28a745; color: white; padding: 2px 6px; border-radius: 3px; font-size: 11px;\">" ++
  pr.state ++ "</span>\n                    <br><a href=\"" ++ pr.url ++
  "\" style=\"color: #28a745;\">View PR</a>\n                </div>\n                "

/-- prs_html: empty when there are no pull requests, else a header plus the
blocks (lines 218-228). -/
def prsHtml (pull_requests : List ItemEntry) : String :=
  if pull_requests.isEmpty then ""
  else "<h2 style=\"color: #28a745;\">ğŸ“‹ Pull Requests</h2>" ++
       String.join (pull_requests.map prBlockHtml)

/-- One issue block (lines 235-241). -/
def issueBlockHtml (issue : ItemEntry) : String :=
  "\n                <div style=\"margin-bottom: 10px; padding: 10px; background-color: #ffeef0; border-radius: 5px;\">\n                    <strong>" ++
  issue.repo ++ "</strong>: " ++ issue.title ++
  "\n                    <span style=\"background-color: #d73a49; color: white; padding: 2px 6px; border-radius: 3px; font-size: 11px;\">" ++
  issue.state ++ "</span>\n                    <br><a href=\"" ++ issue.url ++
  "\" style=\"color: #d73a49;\">View Issue</a>\n                </div>\n                "

/-- issues_html: empty when there are no issues, else a header plus the blocks
(lines 231-241). -/
def issuesHtml (issues : List ItemEntry) : String :=
  if issues.isEmpty then ""
  else "<h2 style=\"color: #d73a49;\">ğŸ› Issues</h2>" ++
       String.join (issues.map issueBlockHtml)

/-- The activity-summary HTML body (lines 243-292).  `nepal_time` is the
formatted `datetime.now(NEPAL_TZ)` string interpolated near the bottom. -/
def activityEmailHtml (s : ActivitySummary) (nepal_time : String) : String :=
  "\n        <html>\n        <head>\n            <meta charset=\"utf-8\">\n        </head>\n        <body style=\"font-family: -apple-system, BlinkMacSystemFont, 'Segoe UI', Roboto, sans-serif; line-height: 1.6; color: #333;\">\n            <div style=\"max-width: 600px; margin: 0 auto; padding: 20px;\">\n                <div style=\"text-align: center; background: linear-gradient(135deg, #667eea 0%, #764ba2 100%); color: white; padding: 30px; border-radius: 10px; margin-bottom: 20px;\">\n                    <h1 style=\"margin: 0;\">ğŸš€ Daily GitHub Report</h1>\n                    <p style=\"margin: 10px 0 0 0; opacity: 0.9;\">Namaste! Here's your activity from " ++
  s.date ++
  "</p>\n                </div>\n\n                <div style=\"background-color: #e8f5e8; padding: 20px; border-radius: 10px; margin-bottom: 20px;\">\n                    <h2 style=\"color: #28a745; margin-top: 0;\">ğŸ“Š Quick Stats</h2>\n                    <div style=\"display: flex; justify-content: space-around; text-align: center;\">\n                        <div>\n                            <div style=\"font-size: 24px; font-weight: bold; color: #0366d6;\">" ++
  toString s.total_commits ++
  "</div>\n                            <div style=\"font-size: 14px;\">Commits</div>\n                        </div>\n                        <div>\n                            <div style=\"font-size: 24px; font-weight: bold; color: #28a745;\">" ++
  toString s.total_prs ++
  "</div>\n                            <div style=\"font-size: 14px;\">Pull Requests</div>\n                        </div>\n                        <div>\n                            <div style=\"font-size: 24px; font-weight: bold; color: #d73a49;\">" ++
  toString s.total_issues ++
  "</div>\n                            <div style=\"font-size: 14px;\">Issues</div>\n                        </div>\n                        <div>\n                            <div style=\"font-size: 24px; font-weight: bold; color: #6f42c1;\">" ++
  toString s.repositories_touched ++
  "</div>\n                            <div style=\"font-size: 14px;\">Repositories</div>\n                        </div>\n                    </div>\n                </div>\n\n                " ++
  (if s.commits.isEmpty then ""
   else "<h2 style=\"color: #0366d6;\">ğŸ’» Commits</h2>" ++ commitsHtml s.commits) ++
  "\n                " ++ prsHtml s.pull_requests ++
  "\n                " ++ issuesHtml s.issues ++
  "\n\n                <div style=\"background-color: #fff3cd; border: 1px solid #ffeaa7; padding: 15px; border-radius: 5px; margin-top: 20px;\">\n                    <p style=\"margin: 0; color: #856404;\"><strong>ğŸ‡³ğŸ‡µ Nepal Time:</strong> " ++
  nepal_time ++
  "</p>\n                </div>\n\n                <div style=\"text-align: center; margin-top: 30px; padding-top: 20px; border-top: 1px solid #eee; color: #666;\">\n                    <p>Keep up the great work! ğŸ‰</p>\n                    <small>Generated by your Daily GitHub Activity Reporter</small>\n                </div>\n            </div>\n        </body>\n        </html>\n        "

/-- The motivational HTML body (lines 298-349), with the chosen quote set
inside quotation marks in the blockquote. -/
def motivationalEmailHtml (quote : String) (nepal_time : String) : String :=
  "\n        <html>\n        <head>\n            <meta charset=\"utf-8\">\n        </head>\n        <body style=\"font-family: -apple-system, BlinkMacSystemFont, 'Segoe UI', Roboto, sans-serif; line-height: 1.6; color: #333;\">\n            <div style=\"max-width: 600px; margin: 0 auto; padding: 20px;\">\n                <div style=\"text-align: center; background: linear-gradient(135deg, #ff7b7b 0%, #667eea 100%); color: white; padding: 40px; border-radius: 15px; margin-bottom: 30px;\">\n                    <h1 style=\"margin: 0; font-size: 28px;\">ğŸŒŸ Daily Inspiration</h1>\n                    <p style=\"margin: 15px 0 0 0; opacity: 0.9;\">Namaste! Let's make today count ğŸ™</p>\n                </div>\n\n                <div style=\"background: linear-gradient(135deg, #ffecd2 0%, #fcb69f 100%); padding: 30px; border-radius: 15px; text-align: center; margin-bottom: 30px;\">\n                    <h2 style=\"color: #d63384; margin: 0 0 20px 0;\">ğŸ’¡ Quote of the Day</h2>\n                    <blockquote style=\"font-size: 18px; font-style: italic; color: #6c5ce7; margin: 0; padding: 0; border: none; line-height: 1.8;\">\n                        \"" ++
  quote ++
  "\"\n                    </blockquote>\n                </div>\n\n                <div style=\"background-color: #e8f4fd; padding: 25px; border-radius: 10px; margin-bottom: 20px;\">\n                    <h2 style=\"color: #0984e3; margin-top: 0;\">ğŸš€ No Activity Yesterday?</h2>\n                    <p>That's okay! Every developer has quiet days. Here are some ideas to get your creative juices flowing:</p>\n\n                    <div style=\"display: grid; gap: 15px;\">\n                        <div style=\"background: white; padding: 15px; border-radius: 8px; border-left: 4px solid #00b894;\">\n                            <strong>ğŸ› Quick Wins:</strong> Fix a small bug, update documentation, or clean up some code\n                        </div>\n                        <div style=\"background: white; padding: 15px; border-radius: 8px; border-left: 4px solid #fdcb6e;\">\n                            <strong>ğŸ§ª Experiment:</strong> Try a new library, write a small script, or refactor an old function\n                        </div>\n                        <div style=\"background: white; padding: 15px; border-radius: 8px; border-left: 4px solid #e17055;\">\n                            <strong>ğŸ“š Learn:</strong> Read about best practices, watch a tutorial, or explore new technologies\n                        </div>\n                        <div style=\"background: white; padding: 15px; border-radius: 8px; border-left: 4px solid #a29bfe;\">\n                            <strong>ğŸ¤ Contribute:</strong> Help with open source, review someone's code, or start a new project\n                        </div>\n                    </div>\n                </div>\n\n                <div style=\"background-color: #fff3cd; border: 1px solid #ffeaa7; padding: 15px; border-radius: 5px; margin-bottom: 20px;\">\n                    <p style=\"margin: 0; color: #856404;\"><strong>ğŸ‡³ğŸ‡µ Nepal Time:</strong> " ++
  nepal_time ++
  "</p>\n                </div>\n\n                <div style=\"text-align: center; margin-top: 30px; padding-top: 20px; border-top: 1px solid #eee;\">\n                    <p style=\"color: #00b894; font-weight: bold; font-size: 18px;\">You've got this! ğŸ’ª</p>\n                    <p style=\"color: #666; margin: 0;\">Remember: Progress over perfection, consistency over intensity!</p>\n                    <small style=\"color: #999;\">Generated with love by your Daily GitHub Activity Reporter</small>\n                </div>\n            </div>\n        </body>\n        </html>\n        "

/-- generate_html_email: choose the template from
`total_commits > 0 or total_prs > 0 or total_issues > 0` (lines 193-195);
the no-activity branch draws `random.choice(MOTIVATIONAL_QUOTES)`, embedded as
the `quoteIdx` draw reduced modulo the list length.  `user_email` is a
parameter of the Python function and is not used in its body. -/
def generate_html_email (activity_summary : ActivitySummary) (user_email : String)
    (nepal_time : String) (quoteIdx : Nat) : String × String :=
  let has_activity :=
    decide (0 < activity_summary.total_commits) ||
    decide (0 < activity_summary.total_prs) ||
    decide (0 < activity_summary.total_issues)
  if has_activity then
    (subjectActivity activity_summary.date, activityEmailHtml activity_summary nepal_time)
  else
    let quote := MOTIVATIONAL_QUOTES.getD (quoteIdx % MOTIVATIONAL_QUOTES.length) ""
    (subjectMotivation activity_summary.date, motivationalEmailHtml quote nepal_time)

/-! ## SMTP (send_email, lines 353-389) -/

/-- The four effectful steps inside the `with smtplib.SMTP(...)` block:
opening the connection (the `SMTP(...)` constructor), `starttls`, `login`,
`send_message`. -/
inductive SmtpEvent where
  | connect
  | starttls
  | login
  | sendMessage
deriving DecidableEq, Repr

/-- The session's steps in program order. -/
def smtpSteps : List SmtpEvent :=
  [SmtpEvent.connect, SmtpEvent.starttls, SmtpEvent.login, SmtpEvent.sendMessage]

/-- Run the session against an environment in which step `k` (0-based) raises,
or no step raises: the trace of completed steps, and whether the `try` body
finished.  A raise lands in the `except` branch, which returns False. -/
def runSmtpSession (failAt : Option Nat) : List SmtpEvent × Bool :=
  match failAt with
  | none => (smtpSteps, true)
  | some k => if k < smtpSteps.length then (smtpSteps.take k, false) else (smtpSteps, true)

/-- Python truthiness of `os.environ.get(...)`: absent or empty is falsy. -/
def truthy : Option String → Bool
  | none => false
  | some s => !(s == "")

/-- send_email: missing sender credentials print an error and return False
before any SMTP step; otherwise the session runs, True on completion and
False when a step raised.  Returns the result together with the trace of
completed SMTP steps. -/
def send_email (sender_email sender_password : Option String)
    (user_email subject html_content : String) (failAt : Option Nat) :
    Bool × List SmtpEvent :=
  if !(truthy sender_email && truthy sender_password) then (false, [])
  else
    let r := runSmtpSession failAt
    (r.2, r.1)

/-! ## main (lines 391-433) -/

/-- The environment variables main and send_email read. -/
structure MainEnv where
  github_token : Option String
  github_username : Option String
  user_email : Option String
  force_send : Option String
  sender_email : Option String
  sender_app_password : Option String

/-- What one run of main did: its exit code (`sys.exit(1)` or falling off the
end), whether it queried GitHub, whether send_email was called, whether the
message went out, whether an error line was printed, and the SMTP trace. -/
structure MainOutcome where
  exitCode : Nat
  queriedGithub : Bool
  emailAttempted : Bool
  emailSent : Bool
  errorPrinted : Bool
  smtpTrace : List SmtpEvent
deriving DecidableEq, Repr

/-- main: the required-variable check (exit 1), the weekend then holiday
skips (plain `return`, exit code 0) unless FORCE_SEND is truthy, then the
query, the email generation and the send; a failed send exits 1. -/
def main (env : MainEnv) (now_nepal : NepalDate) (github_client : GithubClient)
    (dateStr nepal_time : String) (quoteIdx : Nat) (smtpFailAt : Option Nat) :
    MainOutcome :=
  if !(truthy env.github_token && truthy env.github_username && truthy env.user_email) then
    ⟨1, false, false, false, true, []⟩
  else
    let hol := is_nepali_holiday now_nepal
    let is_weekend := is_weekend_in_nepal now_nepal
    if is_weekend && !(truthy env.force_send) then ⟨0, false, false, false, false, []⟩
    else if hol.1 && !(truthy env.force_send) then ⟨0, false, false, false, false, []⟩
    else
      let username := env.github_username.getD ""
      let activity_summary := get_user_activity_yesterday github_client username dateStr
      let se := generate_html_email activity_summary (env.user_email.getD "") nepal_time quoteIdx
      let res := send_email env.sender_email env.sender_app_password
        (env.user_email.getD "") se.1 se.2 smtpFailAt
      if res.1 then ⟨0, true, true, true, false, res.2⟩
      else ⟨1, true, true, false, true, res.2⟩

/-! ## The issue-based commit-reminder script -/

/-- Modelled from the spec: the repository's other script (not under
`src/`) that checks whether the repository has had a commit within the last
24 hours and opens or closes a labeled reminder issue.  The state it reads
from the hosting platform: the elapsed time since the last commit, in hours,
and how many reminder-labeled issues are open. -/
structure ReminderRepo where
  hoursSinceLastCommit : Nat
  openReminderIssues : Nat
deriving DecidableEq, Repr

/-- Modelled from the spec: what one run of the reminder script does. -/
inductive ReminderAction where
  | openedIssue
  | closedIssues (count : Nat) (withComment : Bool)
  | noAction
deriving DecidableEq, Repr

/-- Modelled from the spec: one run of the commit-reminder script.  Stale
(no commit within the 24-hour threshold): open a labeled issue, unless one
is already open (the idempotency check).  Recent commit: close all open
reminder issues, posting a closing comment.  Returns the action and the
platform state it leaves behind. -/
def commit_reminder_run (repo : ReminderRepo) : ReminderAction × ReminderRepo :=
  if 24 ≤ repo.hoursSinceLastCommit then
    if 0 < repo.openReminderIssues then (ReminderAction.noAction, repo)
    else (ReminderAction.openedIssue, { repo with openReminderIssues := 1 })
  else
    if 0 < repo.openReminderIssues then
      (ReminderAction.closedIssues repo.openReminderIssues true,
       { repo with openReminderIssues := 0 })
    else (ReminderAction.noAction, repo)

/-! ## Derived notions used to state the claims -/

/-- The summary entry built for a kept commit (lines 139-143). -/
def entryOf (c : Commit) : CommitEntry :=
  ⟨firstLine c.message, c.sha.take 8, c.html_url⟩

/-- The entries the commit loop keeps from a fetched commit list: those whose
first message line is not flagged by is_automated_commit. -/
def keptEntries (commits : List Commit) : List CommitEntry :=
  (commits.filter (fun c => !(is_automated_commit (firstLine c.message)))).map entryOf

/-- The summary entry built for a search item (a PR or an issue). -/
def itemOf (x : SearchItem) : ItemEntry :=
  ⟨x.title, x.repoName, x.html_url, x.state⟩

/-- The exclusion criterion as the claim words it: the first line of the
commit message, lowercased, contains one of AUTOMATED_COMMIT_PATTERNS as a
substring (no stripping). -/
def firstLineMatchesPattern (message : String) : Bool :=
  AUTOMATED_COMMIT_PATTERNS.any
    (fun pattern => listHasSub pattern.toList (lowerList (firstLine message).toList))

/-- The authorization condition of line 120, on the repository's fields. -/
def authorizedRepo (username : String) (repo : Repo) : Prop :=
  repo.ownerLogin = username ∨ repo.collabPerm = Except.ok "admin" ∨
    repo.collabPerm = Except.ok "write"

/-- Invariant of the accumulator: the touched set is duplicate-free and holds
exactly the repository names occurring in the commits dict, the PR list or the
issue list. -/
def goodTouched (acc : ActivityAcc) : Prop :=
  acc.touched.Nodup ∧
  ∀ x, x ∈ acc.touched ↔
    (x ∈ acc.commits.map Prod.fst ∨ x ∈ acc.pull_requests.map ItemEntry.repo ∨
     x ∈ acc.issues.map ItemEntry.repo)

/-- The running invariant of the accumulator: the touched set is in sync and
the PR and issue counters equal their list lengths. -/
def accInv (acc : ActivityAcc) : Prop :=
  goodTouched acc ∧ acc.total_prs = acc.pull_requests.length ∧
  acc.total_issues = acc.issues.length

/-! ## Theorems -/

/-- C4, counterexample to the claimed 24-hour span: at a concrete moment
(day 3 of the epoch, 10:20:30 Nepal time) the computed window neither spans
86400000000 microseconds nor reaches the start of the current day - it ends at
23:59:59 of the previous day. -/
theorem yesterday_window_not_full_day :
    ¬ (absUsec (yesterday_end ⟨3, 37230000000⟩) - absUsec (yesterday_start ⟨3, 37230000000⟩)
          = 86400000000
       ∨ yesterday_end ⟨3, 37230000000⟩ = ⟨3, 0⟩) := by
  decide

/-- C4 (amended): get_user_activity_yesterday computes the query window inside
the previous civil day in Nepal time: it starts at that day's midnight and ends
at 23:59:59.000000 of the same day, a span of 86399 seconds - one second short
of the start of the current day. -/
theorem yesterday_window_previous_day (now_nepal : NepalInstant) :
    yesterday_start now_nepal = ⟨now_nepal.day - 1, 0⟩ ∧
    yesterday_end now_nepal = ⟨now_nepal.day - 1, 86399000000⟩ ∧
    absUsec (yesterday_end now_nepal) - absUsec (yesterday_start now_nepal) = 86399000000 := by
  refine ⟨?_, ?_, ?_⟩
  · simp [yesterday_start, replaceTime, subOneDay]
  · simp [yesterday_end, yesterday_start, replaceTime, subOneDay]
  · simp [yesterday_end, yesterday_start, replaceTime, subOneDay, absUsec, usecPerDay]

/-- C4 witness: the amended window shape evaluated at a concrete moment. -/
theorem yesterday_window_previous_day_witness :
    yesterday_start ⟨3, 37230000000⟩ = ⟨2, 0⟩ ∧
    yesterday_end ⟨3, 37230000000⟩ = ⟨2, 86399000000⟩ ∧
    absUsec (yesterday_end ⟨3, 37230000000⟩) - absUsec (yesterday_start ⟨3, 37230000000⟩)
      = 86399000000 :=
  yesterday_window_previous_day ⟨3, 37230000000⟩

/-- C7: the commit-reminder script (modelled from the spec) compares the time
since the last commit against the 24-hour threshold; when stale it opens a
labeled issue unless one is already open (so a second run right after is a
no-op), and when a recent commit exists it closes the open reminder issues
with a closing comment. -/
theorem commit_reminder_run_spec (repo : ReminderRepo) :
    (24 ≤ repo.hoursSinceLastCommit → repo.openReminderIssues = 0 →
       (commit_reminder_run repo).1 = ReminderAction.openedIssue ∧
       (commit_reminder_run repo).2.openReminderIssues = 1) ∧
    (24 ≤ repo.hoursSinceLastCommit → 0 < repo.openReminderIssues →
       commit_reminder_run repo = (ReminderAction.noAction, repo)) ∧
    (24 ≤ repo.hoursSinceLastCommit →
       (commit_reminder_run (commit_reminder_run repo).2).1 = ReminderAction.noAction) ∧
    (repo.hoursSinceLastCommit < 24 →
       (commit_reminder_run repo).2.openReminderIssues = 0 ∧
       (0 < repo.openReminderIssues →
          (commit_reminder_run repo).1 =
            ReminderAction.closedIssues repo.openReminderIssues true)) := by
  obtain ⟨h, n⟩ := repo
  refine ⟨fun hs hn0 => ?_, fun hs hn => ?_, fun hs => ?_, fun hs => ?_⟩
  · subst hn0; simp [commit_reminder_run, hs]
  · simp [commit_reminder_run, hs, hn]
  · by_cases hn : 0 < n
    · simp [commit_reminder_run, hs, hn]
    · simp [commit_reminder_run, hs, hn]
  · simp only [] at hs
    have hs2 : ¬ 24 ≤ h := by simp at hs ⊢; omega
    by_cases hn : 0 < n <;> simp [commit_reminder_run, hs2, hn] <;> omega

/-- C6: a successful send_email completes the SMTP session in program order -
connect, STARTTLS, login, send_message - and the message is transmitted only
in a session where STARTTLS and login completed before it. -/
theorem send_email_smtp_order (sender_email sender_password : Option String)
    (user_email subject html_content : String) (failAt : Option Nat) :
    ((send_email sender_email sender_password user_email subject html_content failAt).1 = true →
       (send_email sender_email sender_password user_email subject html_content failAt).2 =
         [SmtpEvent.connect, SmtpEvent.starttls, SmtpEvent.login, SmtpEvent.sendMessage]) ∧
    (SmtpEvent.sendMessage ∈
        (send_email sender_email sender_password user_email subject html_content failAt).2 →
       (send_email sender_email sender_password user_email subject html_content failAt).2 =
         [SmtpEvent.connect, SmtpEvent.starttls, SmtpEvent.login, SmtpEvent.sendMessage]) := by
  by_cases hc : (truthy sender_email && truthy sender_password) = true
  · cases failAt with
    | none => simp [send_email, hc, runSmtpSession, smtpSteps]
    | some k =>
      rcases Nat.lt_or_ge k 4 with hk | hk
      · have : k = 0 ∨ k = 1 ∨ k = 2 ∨ k = 3 := by omega
        rcases this with rfl | rfl | rfl | rfl <;>
          simp [send_email, hc, runSmtpSession, smtpSteps]
      · have hk4 : ¬ k < 4 := by omega
        simp [send_email, hc, runSmtpSession, smtpSteps, hk4]
  · simp [send_email, hc]

/-- C2: with the required variables set, main skips the run - returning with
exit code 0, never touching GitHub and never calling send_email - exactly when
the current Nepal date is a Saturday or a listed holiday and FORCE_SEND has no
truthy value; a truthy FORCE_SEND makes the run proceed to the query and the
send regardless. -/
theorem main_skips_weekend_holiday (env : MainEnv) (now_nepal : NepalDate)
    (github_client : GithubClient) (dateStr nepal_time : String) (quoteIdx : Nat)
    (smtpFailAt : Option Nat)
    (h1 : truthy env.github_token = true) (h2 : truthy env.github_username = true)
    (h3 : truthy env.user_email = true) :
    (((main env now_nepal github_client dateStr nepal_time quoteIdx smtpFailAt).queriedGithub = false ∧
      (main env now_nepal github_client dateStr nepal_time quoteIdx smtpFailAt).emailAttempted = false ∧
      (main env now_nepal github_client dateStr nepal_time quoteIdx smtpFailAt).exitCode = 0) ↔
      ((is_weekend_in_nepal now_nepal = true ∨ (is_nepali_holiday now_nepal).1 = true) ∧
       truthy env.force_send = false)) ∧
    (truthy env.force_send = true →
      (main env now_nepal github_client dateStr nepal_time quoteIdx smtpFailAt).queriedGithub = true ∧
      (main env now_nepal github_client dateStr nepal_time quoteIdx smtpFailAt).emailAttempted = true) := by
  constructor
  · by_cases hf : truthy env.force_send = true
    · simp only [main, h1, h2, h3, hf, Bool.and_self, Bool.not_true, Bool.and_false,
        Bool.if_false_left, Bool.if_false_right, if_false]
      simp [apply_ite MainOutcome.queriedGithub, apply_ite MainOutcome.emailAttempted]
    · have hf2 : truthy env.force_send = false := by
        cases hfe : truthy env.force_send
        · rfl
        · exact absurd hfe hf
      cases hw : is_weekend_in_nepal now_nepal
      · cases hh : (is_nepali_holiday now_nepal).1
        · simp only [main, h1, h2, h3, hf2, hw, hh, Bool.and_self, Bool.not_false,
            Bool.false_and, Bool.not_true, if_false]
          simp [apply_ite MainOutcome.queriedGithub, apply_ite MainOutcome.emailAttempted]
        · simp [main, h1, h2, h3, hf2, hw, hh]
      · simp [main, h1, h2, h3, hf2, hw]
  · intro hf
    simp only [main, h1, h2, h3, hf, Bool.and_self, Bool.not_true, Bool.and_false, if_false]
    simp [apply_ite MainOutcome.queriedGithub, apply_ite MainOutcome.emailAttempted]

/-- C2 witness: on a concrete Saturday with the required variables set and no
FORCE_SEND, the run is skipped; and with FORCE_SEND set it proceeds. -/
theorem main_skips_weekend_holiday_witness :
    (((main ⟨some "t", some "u", some "e", none, some "s", some "p"⟩ ⟨6, 7, 5⟩
        ⟨Except.ok [], Except.ok [], Except.ok []⟩ "2025-06-06" "nt" 0 none).queriedGithub = false ∧
      (main ⟨some "t", some "u", some "e", none, some "s", some "p"⟩ ⟨6, 7, 5⟩
        ⟨Except.ok [], Except.ok [], Except.ok []⟩ "2025-06-06" "nt" 0 none).emailAttempted = false ∧
      (main ⟨some "t", some "u", some "e", none, some "s", some "p"⟩ ⟨6, 7, 5⟩
        ⟨Except.ok [], Except.ok [], Except.ok []⟩ "2025-06-06" "nt" 0 none).exitCode = 0) ↔
      ((is_weekend_in_nepal ⟨6, 7, 5⟩ = true ∨ (is_nepali_holiday ⟨6, 7, 5⟩).1 = true) ∧
       truthy (none : Option String) = false)) ∧
    (truthy (none : Option String) = true →
      (main ⟨some "t", some "u", some "e", none, some "s", some "p"⟩ ⟨6, 7, 5⟩
        ⟨Except.ok [], Except.ok [], Except.ok []⟩ "2025-06-06" "nt" 0 none).queriedGithub = true ∧
      (main ⟨some "t", some "u", some "e", none, some "s", some "p"⟩ ⟨6, 7, 5⟩
        ⟨Except.ok [], Except.ok [], Except.ok []⟩ "2025-06-06" "nt" 0 none).emailAttempted = true) :=
  main_skips_weekend_holiday ⟨some "t", some "u", some "e", none, some "s", some "p"⟩ ⟨6, 7, 5⟩
    ⟨Except.ok [], Except.ok [], Except.ok []⟩ "2025-06-06" "nt" 0 none rfl rfl rfl

/-- C5: main exits non-zero exactly when a required variable has no truthy
value or send_email was reached and returned False (which covers missing
sender credentials and a raised SMTP step); every non-zero exit prints an
error line, and skipped or successful runs exit 0 - the only codes are 0
and 1. -/
theorem main_exit_code (env : MainEnv) (now_nepal : NepalDate) (github_client : GithubClient)
    (dateStr nepal_time : String) (quoteIdx : Nat) (smtpFailAt : Option Nat) :
    ((main env now_nepal github_client dateStr nepal_time quoteIdx smtpFailAt).exitCode ≠ 0 ↔
      ((truthy env.github_token && truthy env.github_username && truthy env.user_email) = false ∨
       ((main env now_nepal github_client dateStr nepal_time quoteIdx smtpFailAt).emailAttempted = true ∧
        (main env now_nepal github_client dateStr nepal_time quoteIdx smtpFailAt).emailSent = false))) ∧
    ((main env now_nepal github_client dateStr nepal_time quoteIdx smtpFailAt).exitCode ≠ 0 →
      (main env now_nepal github_client dateStr nepal_time quoteIdx smtpFailAt).errorPrinted = true) ∧
    ((main env now_nepal github_client dateStr nepal_time quoteIdx smtpFailAt).exitCode = 0 ∨
     (main env now_nepal github_client dateStr nepal_time quoteIdx smtpFailAt).exitCode = 1) := by
  by_cases hg : (truthy env.github_token && truthy env.github_username && truthy env.user_email) = true
  · by_cases hf : truthy env.force_send = true
    · simp only [main, hg, hf, Bool.not_true, Bool.and_false, if_false]
      simp only [Bool.not_eq_true] at *
      simp [hg, apply_ite MainOutcome.exitCode, apply_ite MainOutcome.emailAttempted,
        apply_ite MainOutcome.emailSent, apply_ite MainOutcome.errorPrinted]
    · have hf2 : truthy env.force_send = false := by
        cases hfe : truthy env.force_send
        · rfl
        · exact absurd hfe hf
      cases hw : is_weekend_in_nepal now_nepal
      · cases hh : (is_nepali_holiday now_nepal).1
        · simp only [main, hg, hf2, hw, hh, Bool.not_false, Bool.false_and, if_false]
          simp [hg, apply_ite MainOutcome.exitCode, apply_ite MainOutcome.emailAttempted,
            apply_ite MainOutcome.emailSent, apply_ite MainOutcome.errorPrinted]
        · simp [main, hg, hf2, hw, hh]
      · simp [main, hg, hf2, hw]
  · have hg2 : (truthy env.github_token && truthy env.github_username && truthy env.user_email) = false := by
      cases hge : (truthy env.github_token && truthy env.github_username && truthy env.user_email)
      · rfl
      · exact absurd hge hg
    simp [main, hg2]

/-! ## Substring containment: basic lemmas -/

/-- listHasSub decides the contiguous-substring relation. -/
theorem listHasSub_iff (pat l : List Char) : listHasSub pat l = true ↔ pat <:+: l := by
  induction l with
  | nil =>
    simp [listHasSub, List.isEmpty_iff, List.infix_nil]
  | cons c t ih =>
    simp [listHasSub, ih, List.infix_cons_iff, List.isPrefixOf_iff_prefix]

/-- List.any respects pointwise-equal predicates. -/
theorem listAnyCongr {α : Type} (l : List α) (f g : α → Bool) (h : ∀ x ∈ l, f x = g x) :
    l.any f = l.any g := by
  induction l with
  | nil => rfl
  | cons a t ih =>
    simp only [List.any_cons, h a (by simp), ih (fun x hx => h x (by simp [hx]))]

/-- Dropping a whitespace prefix cannot create or destroy an occurrence of a
pattern that does not start with whitespace. -/
theorem infix_dropWhile_iff (pat l : List Char)
    (hh : pat.head?.all (fun c => !(isSpaceChar c)) = true) :
    pat <:+: l.dropWhile isSpaceChar ↔ pat <:+: l := by
  constructor
  · intro h
    exact h.trans (List.dropWhile_suffix isSpaceChar).isInfix
  · intro h
    induction l with
    | nil => simpa using h
    | cons a t ih =>
      rw [List.dropWhile_cons]
      by_cases ha : isSpaceChar a = true
      · simp only [ha, if_true]
        rcases List.infix_cons_iff.mp h with hpre | hinf
        · cases pat with
          | nil => exact List.nil_infix
          | cons p0 pr =>
            obtain ⟨rfl, -⟩ := List.cons_prefix_cons.mp hpre
            rw [List.head?_cons, Option.all_some, Bool.not_eq_true'] at hh
            rw [hh] at ha
            exact absurd ha (by simp)
        · exact ih hinf
      · simp only [ha, if_false]
        exact h

/-- Infix against a reversed list, by reversing the pattern. -/
theorem infix_reverse_iff (a b : List Char) : a <:+: b.reverse ↔ a.reverse <:+: b := by
  constructor
  · intro h
    have h2 := List.reverse_infix.mpr h
    rwa [List.reverse_reverse] at h2
  · intro h
    have h2 := List.reverse_infix.mpr h
    rwa [List.reverse_reverse] at h2

/-- Stripping whitespace from both ends cannot create or destroy an occurrence
of a pattern that neither starts nor ends with whitespace. -/
theorem infix_stripList_iff (pat l : List Char)
    (hh : pat.head?.all (fun c => !(isSpaceChar c)) = true)
    (hl : pat.getLast?.all (fun c => !(isSpaceChar c)) = true) :
    pat <:+: stripList l ↔ pat <:+: l := by
  unfold stripList
  rw [infix_reverse_iff]
  have hh2 : pat.reverse.head?.all (fun c => !(isSpaceChar c)) = true := by
    rwa [List.head?_reverse]
  rw [infix_dropWhile_iff pat.reverse ((l.dropWhile isSpaceChar).reverse) hh2]
  rw [← infix_reverse_iff, List.reverse_reverse]
  exact infix_dropWhile_iff pat l hh

/-- Bool form of the strip lemma. -/
theorem listHasSub_stripList (pat l : List Char)
    (hh : pat.head?.all (fun c => !(isSpaceChar c)) = true)
    (hl : pat.getLast?.all (fun c => !(isSpaceChar c)) = true) :
    listHasSub pat (stripList l) = listHasSub pat l := by
  have h := infix_stripList_iff pat l hh hl
  rw [← listHasSub_iff, ← listHasSub_iff] at h
  cases ha : listHasSub pat (stripList l) <;> cases hb : listHasSub pat l <;> simp_all

/-- The code's automated-commit test, applied to the extracted first line,
agrees with the claim's phrasing: the lowercased first line contains one of the
patterns (stripping is immaterial because no pattern starts or ends with
whitespace, and lowercasing the patterns is the identity). -/
theorem is_automated_commit_eq_spec (m : String) :
    is_automated_commit (firstLine m) = firstLineMatchesPattern m := by
  unfold is_automated_commit firstLineMatchesPattern
  apply listAnyCongr
  intro p hp
  have hlow : lowerList p.toList = p.toList := by
    fin_cases hp <;> decide
  have hh : (p.toList : List Char).head?.all (fun c => !(isSpaceChar c)) = true := by
    fin_cases hp <;> decide
  have hl : (p.toList : List Char).getLast?.all (fun c => !(isSpaceChar c)) = true := by
    fin_cases hp <;> decide
  rw [hlow, listHasSub_stripList p.toList (lowerList (firstLine m).toList) hh hl]

/-- Containment extends to the right of an append. -/
theorem strContainsSub_append_right (a b q : String) (h : strContainsSub a q = true) :
    strContainsSub (a ++ b) q = true := by
  rw [strContainsSub, listHasSub_iff] at h ⊢
  have hab : (a ++ b).toList = a.toList ++ b.toList := String.data_append a b
  rw [hab]
  obtain ⟨s, t, hst⟩ := h
  exact ⟨s, t ++ b.toList, by rw [← hst]; simp⟩

/-- Containment extends to the left of an append. -/
theorem strContainsSub_append_left (a b q : String) (h : strContainsSub b q = true) :
    strContainsSub (a ++ b) q = true := by
  rw [strContainsSub, listHasSub_iff] at h ⊢
  have hab : (a ++ b).toList = a.toList ++ b.toList := String.data_append a b
  rw [hab]
  obtain ⟨s, t, hst⟩ := h
  exact ⟨a.toList ++ s, t, by rw [← hst]; simp⟩

/-- A string contains itself followed by anything. -/
theorem strContainsSub_self_append (q b : String) : strContainsSub (q ++ b) q = true := by
  rw [strContainsSub, listHasSub_iff]
  have hab : (q ++ b).toList = q.toList ++ b.toList := String.data_append q b
  rw [hab]
  exact ⟨[], b.toList, by simp⟩

/-- A string contains itself. -/
theorem strContainsSub_refl (q : String) : strContainsSub q q = true := by
  rw [strContainsSub, listHasSub_iff]

/-- The motivational body contains the chosen quote verbatim. -/
theorem motivationalEmailHtml_contains (q nt : String) :
    strContainsSub (motivationalEmailHtml q nt) q = true := by
  unfold motivationalEmailHtml
  apply strContainsSub_append_right
  apply strContainsSub_append_right
  apply strContainsSub_append_right
  exact strContainsSub_append_left _ _ _ (strContainsSub_refl q)

/-- The two subjects differ whatever the date suffix is. -/
theorem subjectMotivation_ne_subjectActivity (d : String) :
    subjectMotivation d ≠ subjectActivity d := by
  intro h
  have h2 := congrArg String.data h
  rw [subjectMotivation, subjectActivity, String.data_append, String.data_append] at h2
  have h3 := congrArg List.length h2
  rw [List.length_append, List.length_append] at h3
  have e : ("ğŸ’ª Daily Motivation - " : String).data.length ≠
      ("ğŸ‰ Your GitHub Activity Summary - " : String).data.length := by decide
  exact e (by omega)

/-- C1: generate_html_email produces the activity-summary email exactly when
one of total_commits, total_prs, total_issues is positive; otherwise it
produces the motivational email, whose body contains a quote drawn from
MOTIVATIONAL_QUOTES. -/
theorem generate_html_email_template_choice (s : ActivitySummary)
    (user_email nepal_time : String) (quoteIdx : Nat) :
    ((generate_html_email s user_email nepal_time quoteIdx).1 = subjectActivity s.date ↔
      (0 < s.total_commits ∨ 0 < s.total_prs ∨ 0 < s.total_issues)) ∧
    (¬ (0 < s.total_commits ∨ 0 < s.total_prs ∨ 0 < s.total_issues) →
      ∃ q ∈ MOTIVATIONAL_QUOTES,
        (generate_html_email s user_email nepal_time quoteIdx).1 = subjectMotivation s.date ∧
        strContainsSub (generate_html_email s user_email nepal_time quoteIdx).2 q = true) := by
  by_cases hact : (decide (0 < s.total_commits) || decide (0 < s.total_prs) ||
      decide (0 < s.total_issues)) = true
  · have hprop : 0 < s.total_commits ∨ 0 < s.total_prs ∨ 0 < s.total_issues := by
      simpa [Bool.or_eq_true, decide_eq_true_eq, or_assoc] using hact
    constructor
    · simp [generate_html_email, hact, hprop]
    · intro hno
      exact absurd hprop hno
  · have hprop : ¬ (0 < s.total_commits ∨ 0 < s.total_prs ∨ 0 < s.total_issues) := by
      intro hp
      apply hact
      rcases hp with h | h | h <;> simp [h]
    have hfst : (generate_html_email s user_email nepal_time quoteIdx).1 =
        subjectMotivation s.date := by
      simp [generate_html_email, hact]
    constructor
    · rw [hfst]
      simp [hprop, subjectMotivation_ne_subjectActivity s.date]
    · intro _
      have hlt : quoteIdx % MOTIVATIONAL_QUOTES.length < MOTIVATIONAL_QUOTES.length :=
        Nat.mod_lt _ (by decide)
      refine ⟨MOTIVATIONAL_QUOTES.getD (quoteIdx % MOTIVATIONAL_QUOTES.length) "", ?_, hfst, ?_⟩
      · rw [List.getD_eq_getElem MOTIVATIONAL_QUOTES "" hlt]
        exact List.getElem_mem hlt
      · have hsnd : (generate_html_email s user_email nepal_time quoteIdx).2 =
            motivationalEmailHtml
              (MOTIVATIONAL_QUOTES.getD (quoteIdx % MOTIVATIONAL_QUOTES.length) "")
              nepal_time := by
          simp [generate_html_email, hact]
        rw [hsnd]
        exact motivationalEmailHtml_contains _ nepal_time

/-! ## Lemmas about the set and dict embeddings -/

/-- Membership after addSet. -/
theorem mem_addSet (s : List String) (x y : String) : y ∈ addSet s x ↔ y ∈ s ∨ y = x := by
  unfold addSet
  by_cases h : x ∈ s
  · simp [h]
    intro hy
    subst hy
    exact h
  · simp [h]

/-- addSet keeps a duplicate-free list duplicate-free. -/
theorem nodup_addSet (s : List String) (x : String) (h : s.Nodup) : (addSet s x).Nodup := by
  unfold addSet
  by_cases hx : x ∈ s
  · simp [hx, h]
  · simp [hx, List.nodup_append, h]

/-- addSet twice with the same element is addSet once. -/
theorem addSet_addSet (s : List String) (x : String) : addSet (addSet s x) x = addSet s x := by
  unfold addSet
  by_cases h : x ∈ s
  · simp [h]
  · simp [h]

/-- After a dict assignment the keys are the old keys together with the
assigned key (which coincides with the old keys on an overwrite). -/
theorem mem_dictInsert_map_fst (d : List (String × List CommitEntry)) (k : String)
    (v : List CommitEntry) (x : String) :
    x ∈ (dictInsert d k v).map Prod.fst ↔ x ∈ d.map Prod.fst ∨ x = k := by
  unfold dictInsert
  by_cases h : (d.map Prod.fst).contains k = true
  · have hk : k ∈ d.map Prod.fst := by simpa using h
    rw [if_pos h, List.map_map]
    have hfun : (Prod.fst ∘ fun p : String × List CommitEntry =>
        if p.1 == k then (k, v) else p) = fun p => if p.1 == k then k else p.1 := by
      funext p
      by_cases hp : (p.1 == k) = true
      · have hpe : p.1 = k := by simpa using hp
        simp [hpe]
      · have hpe : ¬ p.1 = k := by simpa using hp
        simp [hpe]
    rw [hfun]
    constructor
    · intro hx
      obtain ⟨p, hp, hpx⟩ := List.mem_map.mp hx
      by_cases hpk : (p.1 == k) = true
      · right
        rw [← hpx]
        simp [hpk]
      · left
        rw [← hpx]
        simp only [hpk, Bool.false_eq_true, if_false]
        exact List.mem_map.mpr ⟨p, hp, rfl⟩
    · intro hx
      rcases hx with hx | rfl
      · obtain ⟨p, hp, hpx⟩ := List.mem_map.mp hx
        apply List.mem_map.mpr
        refine ⟨p, hp, ?_⟩
        by_cases hpk : (p.1 == k) = true
        · have hpe : p.1 = k := by simpa using hpk
          rw [if_pos hpk, ← hpx]
          exact hpe.symm
        · rw [if_neg hpk]
          exact hpx
      · obtain ⟨p, hp, hpk⟩ := List.mem_map.mp hk
        exact List.mem_map.mpr ⟨p, hp, by simp [hpk]⟩
  · rw [if_neg h]
    rw [List.map_append]
    simp [List.mem_append]

/-- On a fresh key the dict assignment appends the pair. -/
theorem dictInsert_not_mem (d : List (String × List CommitEntry)) (k : String)
    (v : List CommitEntry) (h : k ∉ d.map Prod.fst) : dictInsert d k v = d ++ [(k, v)] := by
  unfold dictInsert
  rw [if_neg]
  simpa using h

/-! ## Characterizing the commit loop and the repository loop -/

/-- The commit loop returns exactly the kept entries, appended to what was
already collected. -/
theorem foldl_commitStep_fst (name : String) (commits : List Commit)
    (rc : List CommitEntry) (acc : ActivityAcc) :
    (commits.foldl (commitStep name) (rc, acc)).1 = rc ++ keptEntries commits := by
  induction commits generalizing rc acc with
  | nil => simp [keptEntries]
  | cons c cs ih =>
    rw [List.foldl_cons]
    by_cases hc : is_automated_commit (firstLine c.message) = true
    · rw [show commitStep name (rc, acc) c = (rc, acc) by simp [commitStep, hc]]
      rw [ih]
      simp [keptEntries, List.filter_cons, hc]
    · have hstep : commitStep name (rc, acc) c =
          (rc ++ [entryOf c],
           { acc with
              total_commits := acc.total_commits + 1,
              touched := addSet acc.touched name }) := by
        simp [commitStep, hc, entryOf]
      rw [hstep, ih]
      simp [keptEntries, List.filter_cons, hc]

/-- The commit loop bumps total_commits by the number of kept entries, adds the
repository to the touched set when it keeps anything, and leaves every other
field alone. -/
theorem foldl_commitStep_snd (name : String) (commits : List Commit)
    (rc : List CommitEntry) (acc : ActivityAcc) :
    (commits.foldl (commitStep name) (rc, acc)).2 =
      { acc with
         total_commits := acc.total_commits + (keptEntries commits).length,
         touched := if keptEntries commits = [] then acc.touched
                    else addSet acc.touched name } := by
  induction commits generalizing rc acc with
  | nil =>
    cases acc
    simp [keptEntries]
  | cons c cs ih =>
    rw [List.foldl_cons]
    by_cases hc : is_automated_commit (firstLine c.message) = true
    · rw [show commitStep name (rc, acc) c = (rc, acc) by simp [commitStep, hc]]
      rw [ih]
      simp [keptEntries, List.filter_cons, hc]
    · have hstep : commitStep name (rc, acc) c =
          (rc ++ [entryOf c],
           { acc with
              total_commits := acc.total_commits + 1,
              touched := addSet acc.touched name }) := by
        simp [commitStep, hc, entryOf]
      rw [hstep, ih]
      cases acc
      have hke : keptEntries (c :: cs) = entryOf c :: keptEntries cs := by
        simp [keptEntries, List.filter_cons, hc]
      rw [hke]
      by_cases hcs : keptEntries cs = []
      · simp [hcs]
      · simp [hcs, addSet_addSet]
        omega

/-- The repository-loop body, on a repository whose permission check passes
and whose commit query returns: bump the totals by the kept commits and store
them under the repository's name when there are any. -/
theorem processRepo_ok (username : String) (acc : ActivityAcc) (repo : Repo)
    (commits : List Commit) (hperm : permCheck username repo = Except.ok true)
    (hc : repo.commitsResult = Except.ok commits) :
    processRepo username acc repo =
      (if keptEntries commits = [] then acc
       else { acc with
               commits := dictInsert acc.commits repo.name (keptEntries commits),
               total_commits := acc.total_commits + (keptEntries commits).length,
               touched := addSet acc.touched repo.name }) := by
  unfold processRepo
  rw [hperm, hc]
  dsimp only
  rw [foldl_commitStep_fst, foldl_commitStep_snd]
  simp only [List.nil_append]
  by_cases hk : keptEntries commits = []
  · rw [if_pos hk]
    cases acc
    simp [hk]
  · rw [if_neg hk]
    cases acc
    simp [hk, List.isEmpty_iff]

/-- Every repository either leaves the accumulator unchanged or contributes a
nonempty kept list in the canonical way. -/
theorem processRepo_cases (username : String) (acc : ActivityAcc) (repo : Repo) :
    processRepo username acc repo = acc ∨
    ∃ kept : List CommitEntry, kept ≠ [] ∧
      processRepo username acc repo =
        { acc with
           commits := dictInsert acc.commits repo.name kept,
           total_commits := acc.total_commits + kept.length,
           touched := addSet acc.touched repo.name } := by
  cases hperm : permCheck username repo with
  | error e =>
    left
    unfold processRepo
    rw [hperm]
  | ok b =>
    cases b with
    | false =>
      left
      unfold processRepo
      rw [hperm]
    | true =>
      cases hc : repo.commitsResult with
      | error e =>
        left
        unfold processRepo
        rw [hperm, hc]
      | ok commits =>
        by_cases hk : keptEntries commits = []
        · left
          rw [processRepo_ok username acc repo commits hperm hc, if_pos hk]
        · right
          exact ⟨keptEntries commits, hk,
            by rw [processRepo_ok username acc repo commits hperm hc, if_neg hk]⟩

/-- C3: for a repository whose permission check passes and whose commit query
returns, the kept commits are exactly those whose first message line,
lowercased, contains none of AUTOMATED_COMMIT_PATTERNS: the excluded ones
appear in no per-repository list, add nothing to total_commits, and do not mark
the repository as touched; all others are counted and stored. -/
theorem commit_filtering_spec (username : String) (acc : ActivityAcc) (repo : Repo)
    (commits : List Commit) (hperm : permCheck username repo = Except.ok true)
    (hc : repo.commitsResult = Except.ok commits) :
    (processRepo username acc repo).total_commits =
      acc.total_commits +
        (commits.filter (fun c => !(firstLineMatchesPattern c.message))).length ∧
    (processRepo username acc repo).commits =
      (if commits.filter (fun c => !(firstLineMatchesPattern c.message)) = [] then acc.commits
       else dictInsert acc.commits repo.name
         ((commits.filter (fun c => !(firstLineMatchesPattern c.message))).map entryOf)) ∧
    (processRepo username acc repo).touched =
      (if commits.filter (fun c => !(firstLineMatchesPattern c.message)) = [] then acc.touched
       else addSet acc.touched repo.name) ∧
    (processRepo username acc repo).pull_requests = acc.pull_requests ∧
    (processRepo username acc repo).issues = acc.issues := by
  have hfe : keptEntries commits =
      (commits.filter (fun c => !(firstLineMatchesPattern c.message))).map entryOf := by
    unfold keptEntries
    congr 1
    exact List.filter_congr (fun c _ => by rw [is_automated_commit_eq_spec])
  rw [processRepo_ok username acc repo commits hperm hc, hfe]
  by_cases hk : commits.filter (fun c => !(firstLineMatchesPattern c.message)) = []
  · simp [hk]
  · have hk2 : (commits.filter (fun c => !(firstLineMatchesPattern c.message))).map entryOf
        ≠ [] := by
      simpa [List.map_eq_nil_iff] using hk
    simp [hk, hk2]

/-- C3 witness: one automated commit ("ci: nightly build") and one human commit
processed for a concrete repository owned by the user. -/
theorem commit_filtering_spec_witness :
    (processRepo "user" (initAcc "2025-01-01")
        ⟨"demo", "user", Except.ok "admin",
         Except.ok [⟨"ci: nightly build", "aaaabbbbcc", "u1"⟩,
                    ⟨"Fix crash on start", "ccccddddee", "u2"⟩]⟩).total_commits =
      (initAcc "2025-01-01").total_commits +
        ([⟨"ci: nightly build", "aaaabbbbcc", "u1"⟩,
          (⟨"Fix crash on start", "ccccddddee", "u2"⟩ : Commit)].filter
            (fun c => !(firstLineMatchesPattern c.message))).length ∧
    (processRepo "user" (initAcc "2025-01-01")
        ⟨"demo", "user", Except.ok "admin",
         Except.ok [⟨"ci: nightly build", "aaaabbbbcc", "u1"⟩,
                    ⟨"Fix crash on start", "ccccddddee", "u2"⟩]⟩).commits =
      (if [⟨"ci: nightly build", "aaaabbbbcc", "u1"⟩,
           (⟨"Fix crash on start", "ccccddddee", "u2"⟩ : Commit)].filter
              (fun c => !(firstLineMatchesPattern c.message)) = []
       then (initAcc "2025-01-01").commits
       else dictInsert (initAcc "2025-01-01").commits "demo"
         (([⟨"ci: nightly build", "aaaabbbbcc", "u1"⟩,
            (⟨"Fix crash on start", "ccccddddee", "u2"⟩ : Commit)].filter
              (fun c => !(firstLineMatchesPattern c.message))).map entryOf)) ∧
    (processRepo "user" (initAcc "2025-01-01")
        ⟨"demo", "user", Except.ok "admin",
         Except.ok [⟨"ci: nightly build", "aaaabbbbcc", "u1"⟩,
                    ⟨"Fix crash on start", "ccccddddee", "u2"⟩]⟩).touched =
      (if [⟨"ci: nightly build", "aaaabbbbcc", "u1"⟩,
           (⟨"Fix crash on start", "ccccddddee", "u2"⟩ : Commit)].filter
              (fun c => !(firstLineMatchesPattern c.message)) = []
       then (initAcc "2025-01-01").touched
       else addSet (initAcc "2025-01-01").touched "demo") ∧
    (processRepo "user" (initAcc "2025-01-01")
        ⟨"demo", "user", Except.ok "admin",
         Except.ok [⟨"ci: nightly build", "aaaabbbbcc", "u1"⟩,
                    ⟨"Fix crash on start", "ccccddddee", "u2"⟩]⟩).pull_requests =
      (initAcc "2025-01-01").pull_requests ∧
    (processRepo "user" (initAcc "2025-01-01")
        ⟨"demo", "user", Except.ok "admin",
         Except.ok [⟨"ci: nightly build", "aaaabbbbcc", "u1"⟩,
                    ⟨"Fix crash on start", "ccccddddee", "u2"⟩]⟩).issues =
      (initAcc "2025-01-01").issues :=
  commit_filtering_spec "user" (initAcc "2025-01-01")
    ⟨"demo", "user", Except.ok "admin",
     Except.ok [⟨"ci: nightly build", "aaaabbbbcc", "u1"⟩,
                ⟨"Fix crash on start", "ccccddddee", "u2"⟩]⟩
    [⟨"ci: nightly build", "aaaabbbbcc", "u1"⟩, ⟨"Fix crash on start", "ccccddddee", "u2"⟩]
    rfl rfl

/-- C10: a repository is skipped entirely - the accumulator is returned
unchanged - unless the user owns it or holds admin or write collaborator
permission; conversely, any change to the commits dict certifies that
authorization. -/
theorem processRepo_permission_guard (username : String) (acc : ActivityAcc) (repo : Repo) :
    (¬ authorizedRepo username repo → processRepo username acc repo = acc) ∧
    ((processRepo username acc repo).commits ≠ acc.commits → authorizedRepo username repo) := by
  have key : ¬ authorizedRepo username repo → processRepo username acc repo = acc := by
    intro hna
    rw [authorizedRepo] at hna
    push_neg at hna
    obtain ⟨ho, hpa, hpw⟩ := hna
    have hob : (repo.ownerLogin == username) = false := by
      simp [ho]
    unfold processRepo permCheck
    cases hcp : repo.collabPerm with
    | error e => simp [hob, hcp]
    | ok p =>
      have h1 : (p == "admin") = false := by
        simp only [beq_eq_false_iff_ne, ne_eq]
        intro he
        exact hpa (by rw [hcp, he])
      have h2 : (p == "write") = false := by
        simp only [beq_eq_false_iff_ne, ne_eq]
        intro he
        exact hpw (by rw [hcp, he])
      simp [hob, hcp, h1, h2]
  refine ⟨key, fun hne => ?_⟩
  by_contra hna
  exact hne (by rw [key hna])

/-- C8: exceptions in the GitHub queries are contained - a repository whose
permission or commit call raises is skipped with the accumulator unchanged, a
failed repository listing yields the all-zero summary, and a run whose every
query fails still reaches send_email. -/
theorem activity_errors_contained (username dateStr : String) :
    (∀ (acc : ActivityAcc) (repo : Repo) (e : String),
        ((repo.collabPerm = Except.error e ∧ ¬ repo.ownerLogin = username) ∨
         repo.commitsResult = Except.error e) →
        processRepo username acc repo = acc) ∧
    (∀ (github_client : GithubClient) (e : String),
        github_client.reposResult = Except.error e →
        get_user_activity_yesterday github_client username dateStr =
          ⟨dateStr, [], [], [], 0, 0, 0, 0, 0⟩) ∧
    (∀ (env : MainEnv) (now_nepal : NepalDate) (nepal_time : String) (quoteIdx : Nat)
        (smtpFailAt : Option Nat) (e1 e2 e3 : String),
        (truthy env.github_token && truthy env.github_username && truthy env.user_email) = true →
        (is_weekend_in_nepal now_nepal || (is_nepali_holiday now_nepal).1) = false →
        (main env now_nepal ⟨Except.error e1, Except.error e2, Except.error e3⟩ dateStr
            nepal_time quoteIdx smtpFailAt).emailAttempted = true) := by
  refine ⟨?_, ?_, ?_⟩
  · rintro acc repo e (⟨hcp, ho⟩ | hcr)
    · have hob : (repo.ownerLogin == username) = false := by
        simp [ho]
      unfold processRepo permCheck
      simp [hob, hcp]
    · unfold processRepo
      cases hperm : permCheck username repo with
      | error e2 => rfl
      | ok b =>
        cases b with
        | false => rfl
        | true => rw [hcr]
  · intro client e h
    unfold get_user_activity_yesterday
    rw [h]
    rfl
  · intro env now_nepal nepal_time quoteIdx smtpFailAt e1 e2 e3 hreq hskip
    have hw : is_weekend_in_nepal now_nepal = false := by
      cases hb : is_weekend_in_nepal now_nepal
      · rfl
      · rw [hb] at hskip
        simp at hskip
    have hh : (is_nepali_holiday now_nepal).1 = false := by
      cases hb : (is_nepali_holiday now_nepal).1
      · rfl
      · rw [hb] at hskip
        simp at hskip
    simp [main, hreq, hw, hh, apply_ite MainOutcome.emailAttempted]

/-! ## The accumulator invariant through the three loops -/

/-- A fold preserves any invariant its step preserves. -/
theorem foldl_preserves {α : Type} (f : ActivityAcc → α → ActivityAcc) (P : ActivityAcc → Prop)
    (h : ∀ acc x, P acc → P (f acc x)) :
    ∀ (l : List α) (acc : ActivityAcc), P acc → P (l.foldl f acc) := by
  intro l
  induction l with
  | nil => intro acc hp; exact hp
  | cons a t ih =>
    intro acc hp
    rw [List.foldl_cons]
    exact ih (f acc a) (h acc a hp)

/-- The repository loop preserves the accumulator invariant. -/
theorem processRepo_accInv (username : String) (acc : ActivityAcc) (repo : Repo)
    (h : accInv acc) : accInv (processRepo username acc repo) := by
  obtain ⟨⟨hnd, hmem⟩, hp, hi⟩ := h
  rcases processRepo_cases username acc repo with he | ⟨kept, hne, he⟩
  · rw [he]
    exact ⟨⟨hnd, hmem⟩, hp, hi⟩
  · rw [he]
    refine ⟨⟨nodup_addSet _ _ hnd, ?_⟩, hp, hi⟩
    intro x
    dsimp only
    rw [mem_addSet, mem_dictInsert_map_fst, hmem x]
    tauto

/-- The PR loop preserves the accumulator invariant. -/
theorem addPullRequest_accInv (acc : ActivityAcc) (pr : SearchItem)
    (h : accInv acc) : accInv (addPullRequest acc pr) := by
  obtain ⟨⟨hnd, hmem⟩, hp, hi⟩ := h
  unfold addPullRequest
  refine ⟨⟨nodup_addSet _ _ hnd, ?_⟩, ?_, ?_⟩
  · intro x
    dsimp only
    rw [mem_addSet, hmem x]
    simp only [List.map_append, List.mem_append, List.map_cons, List.map_nil,
      List.mem_singleton]
    tauto
  · dsimp only
    simp [hp]
  · dsimp only
    exact hi

/-- The issue loop preserves the accumulator invariant. -/
theorem addIssue_accInv (acc : ActivityAcc) (issue : SearchItem)
    (h : accInv acc) : accInv (addIssue acc issue) := by
  obtain ⟨⟨hnd, hmem⟩, hp, hi⟩ := h
  unfold addIssue
  refine ⟨⟨nodup_addSet _ _ hnd, ?_⟩, ?_, ?_⟩
  · intro x
    dsimp only
    rw [mem_addSet, hmem x]
    simp only [List.map_append, List.mem_append, List.map_cons, List.map_nil,
      List.mem_singleton]
    tauto
  · dsimp only
    exact hp
  · dsimp only
    simp [hi]

/-- The PR loop changes neither the commits dict nor total_commits. -/
theorem foldl_addPullRequest_commits (prs : List SearchItem) (acc : ActivityAcc) :
    (prs.foldl addPullRequest acc).commits = acc.commits ∧
    (prs.foldl addPullRequest acc).total_commits = acc.total_commits := by
  induction prs generalizing acc with
  | nil => exact ⟨rfl, rfl⟩
  | cons p ps ih =>
    rw [List.foldl_cons]
    exact ih (addPullRequest acc p)

/-- The issue loop changes neither the commits dict nor total_commits. -/
theorem foldl_addIssue_commits (issues : List SearchItem) (acc : ActivityAcc) :
    (issues.foldl addIssue acc).commits = acc.commits ∧
    (issues.foldl addIssue acc).total_commits = acc.total_commits := by
  induction issues generalizing acc with
  | nil => exact ⟨rfl, rfl⟩
  | cons p ps ih =>
    rw [List.foldl_cons]
    exact ih (addIssue acc p)

/-- Over a list of repositories with pairwise-distinct names, all fresh for
the accumulator, the repository loop keeps total_commits equal to the sum of
the stored per-repository list lengths, and only adds keys drawn from the
repository names. -/
theorem stageA_sum (username : String) :
    ∀ (repos : List Repo) (acc : ActivityAcc),
      (repos.map Repo.name).Nodup →
      (∀ r ∈ repos, r.name ∉ acc.commits.map Prod.fst) →
      acc.total_commits = ((acc.commits.map (fun p => p.2.length)).sum) →
      (repos.foldl (processRepo username) acc).total_commits =
        (((repos.foldl (processRepo username) acc).commits.map (fun p => p.2.length)).sum) ∧
      (∀ x, x ∈ (repos.foldl (processRepo username) acc).commits.map Prod.fst →
         x ∈ acc.commits.map Prod.fst ∨ x ∈ repos.map Repo.name) := by
  intro repos
  induction repos with
  | nil =>
    intro acc _ _ hsum
    exact ⟨hsum, fun x hx => Or.inl hx⟩
  | cons r rs ih =>
    intro acc hnd hfresh hsum
    rw [List.map_cons] at hnd
    have hndtail := hnd.of_cons
    have hrhead : r.name ∉ rs.map Repo.name := (List.nodup_cons.mp hnd).1
    rw [List.foldl_cons]
    rcases processRepo_cases username acc r with he | ⟨kept, hne, he⟩
    · rw [he]
      have hfresh2 : ∀ r2 ∈ rs, r2.name ∉ acc.commits.map Prod.fst :=
        fun r2 h2 => hfresh r2 (by simp [h2])
      obtain ⟨h1, h2⟩ := ih acc hndtail hfresh2 hsum
      refine ⟨h1, fun x hx => ?_⟩
      rcases h2 x hx with hm | hm
      · exact Or.inl hm
      · exact Or.inr (by simp [hm])
    · rw [he]
      have hr : r.name ∉ acc.commits.map Prod.fst := hfresh r (by simp)
      have hins : dictInsert acc.commits r.name kept = acc.commits ++ [(r.name, kept)] :=
        dictInsert_not_mem _ _ _ hr
      have hsum2 : ({ acc with
            commits := dictInsert acc.commits r.name kept,
            total_commits := acc.total_commits + kept.length,
            touched := addSet acc.touched r.name } : ActivityAcc).total_commits =
          ((({ acc with
               commits := dictInsert acc.commits r.name kept,
               total_commits := acc.total_commits + kept.length,
               touched := addSet acc.touched r.name } : ActivityAcc).commits.map
              (fun p => p.2.length)).sum) := by
        dsimp only
        rw [hins, List.map_append, List.sum_append, hsum]
        simp
      have hfresh2 : ∀ r2 ∈ rs, r2.name ∉ ({ acc with
            commits := dictInsert acc.commits r.name kept,
            total_commits := acc.total_commits + kept.length,
            touched := addSet acc.touched r.name } : ActivityAcc).commits.map Prod.fst := by
        intro r2 h2
        dsimp only
        rw [hins, List.map_append]
        simp only [List.mem_append, List.map_cons, List.map_nil, List.mem_singleton]
        rintro (hm | hm)
        · exact hfresh r2 (by simp [h2]) hm
        · exact hrhead (hm ▸ List.mem_map.mpr ⟨r2, h2, rfl⟩)
      obtain ⟨h1, h2⟩ := ih _ hndtail hfresh2 hsum2
      refine ⟨h1, fun x hx => ?_⟩
      rcases h2 x hx with hm | hm
      · dsimp only at hm
        rw [hins, List.map_append] at hm
        simp only [List.mem_append, List.map_cons, List.map_nil, List.mem_singleton] at hm
        rcases hm with hm | hm
        · exact Or.inl hm
        · exact Or.inr (by simp [hm])
      · exact Or.inr (by simp [hm])

/-- Finalizing a well-formed accumulator counts exactly the distinct
repository names contributing a stored commit list, a PR or an issue. -/
theorem finalize_touched_count (acc : ActivityAcc) (h : goodTouched acc) :
    (finalize acc).repositories_touched =
      (((finalize acc).commits.map Prod.fst ++
        (finalize acc).pull_requests.map ItemEntry.repo ++
        (finalize acc).issues.map ItemEntry.repo).dedup).length := by
  obtain ⟨hnd, hmem⟩ := h
  have hperm : acc.touched.Perm
      ((acc.commits.map Prod.fst ++ acc.pull_requests.map ItemEntry.repo ++
        acc.issues.map ItemEntry.repo).dedup) := by
    rw [List.perm_ext_iff_of_nodup hnd (List.nodup_dedup _)]
    intro a
    rw [List.mem_dedup, hmem a]
    simp [List.mem_append, or_assoc]
  simpa [finalize] using hperm.length_eq

/-- C9 (amended): in every returned summary, total_prs and total_issues equal
the lengths of their lists, and repositories_touched counts the distinct
repository names contributing a stored commit list, a PR or an issue;
total_commits equals the sum of the stored per-repository list lengths
whenever the listed repositories have pairwise-distinct names (a duplicate
name overwrites the earlier dict entry, breaking that equality). -/
theorem summary_totals (github_client : GithubClient) (username dateStr : String) :
    (get_user_activity_yesterday github_client username dateStr).total_prs =
      (get_user_activity_yesterday github_client username dateStr).pull_requests.length ∧
    (get_user_activity_yesterday github_client username dateStr).total_issues =
      (get_user_activity_yesterday github_client username dateStr).issues.length ∧
    (get_user_activity_yesterday github_client username dateStr).repositories_touched =
      (((get_user_activity_yesterday github_client username dateStr).commits.map Prod.fst ++
        (get_user_activity_yesterday github_client username dateStr).pull_requests.map
          ItemEntry.repo ++
        (get_user_activity_yesterday github_client username dateStr).issues.map
          ItemEntry.repo).dedup).length ∧
    (∀ repos, github_client.reposResult = Except.ok repos →
       (repos.map Repo.name).Nodup →
       (get_user_activity_yesterday github_client username dateStr).total_commits =
         (((get_user_activity_yesterday github_client username dateStr).commits.map
             (fun p => p.2.length)).sum)) := by
  have hInv0 : accInv (initAcc dateStr) := by
    unfold accInv goodTouched initAcc
    simp
  cases hrep : github_client.reposResult with
  | error e =>
    have hs : get_user_activity_yesterday github_client username dateStr =
        finalize (initAcc dateStr) := by
      unfold get_user_activity_yesterday
      rw [hrep]
    rw [hs]
    refine ⟨hInv0.2.1, hInv0.2.2, finalize_touched_count _ hInv0.1, ?_⟩
    intro repos habs
    simp at habs
  | ok repos0 =>
    have hInv1 : accInv (repos0.foldl (processRepo username) (initAcc dateStr)) :=
      foldl_preserves (processRepo username) accInv
        (fun a r hp => processRepo_accInv username a r hp) repos0 (initAcc dateStr) hInv0
    have hsumA : (repos0.map Repo.name).Nodup →
        (repos0.foldl (processRepo username) (initAcc dateStr)).total_commits =
          (((repos0.foldl (processRepo username) (initAcc dateStr)).commits.map
              (fun p => p.2.length)).sum) := by
      intro hnd
      exact (stageA_sum username repos0 (initAcc dateStr) hnd (by simp [initAcc])
        (by simp [initAcc])).1
    cases hpr : github_client.prSearch with
    | error e2 =>
      have hs : get_user_activity_yesterday github_client username dateStr =
          finalize (repos0.foldl (processRepo username) (initAcc dateStr)) := by
        unfold get_user_activity_yesterday
        rw [hrep, hpr]
      rw [hs]
      refine ⟨hInv1.2.1, hInv1.2.2, finalize_touched_count _ hInv1.1, ?_⟩
      intro repos hok hnd
      obtain rfl : repos0 = repos := by
        injection hok
      exact hsumA hnd
    | ok prs =>
      have hInv2 : accInv (prs.foldl addPullRequest
          (repos0.foldl (processRepo username) (initAcc dateStr))) :=
        foldl_preserves addPullRequest accInv
          (fun a p hp => addPullRequest_accInv a p hp) prs _ hInv1
      have hB := foldl_addPullRequest_commits prs
        (repos0.foldl (processRepo username) (initAcc dateStr))
      cases hiss : github_client.issueSearch with
      | error e3 =>
        have hs : get_user_activity_yesterday github_client username dateStr =
            finalize (prs.foldl addPullRequest
              (repos0.foldl (processRepo username) (initAcc dateStr))) := by
          unfold get_user_activity_yesterday
          rw [hrep, hpr, hiss]
        rw [hs]
        refine ⟨hInv2.2.1, hInv2.2.2, finalize_touched_count _ hInv2.1, ?_⟩
        intro repos hok hnd
        obtain rfl : repos0 = repos := by
          injection hok
        have := hsumA hnd
        rw [show (finalize (prs.foldl addPullRequest
            (repos0.foldl (processRepo username) (initAcc dateStr)))).total_commits =
            (prs.foldl addPullRequest
              (repos0.foldl (processRepo username) (initAcc dateStr))).total_commits from rfl]
        rw [show (finalize (prs.foldl addPullRequest
            (repos0.foldl (processRepo username) (initAcc dateStr)))).commits =
            (prs.foldl addPullRequest
              (repos0.foldl (processRepo username) (initAcc dateStr))).commits from rfl]
        rw [hB.1, hB.2]
        exact this
      | ok issues =>
        have hInv3 : accInv (issues.foldl addIssue (prs.foldl addPullRequest
            (repos0.foldl (processRepo username) (initAcc dateStr)))) :=
          foldl_preserves addIssue accInv
            (fun a p hp => addIssue_accInv a p hp) issues _ hInv2
        have hC := foldl_addIssue_commits issues (prs.foldl addPullRequest
          (repos0.foldl (processRepo username) (initAcc dateStr)))
        have hs : get_user_activity_yesterday github_client username dateStr =
            finalize (issues.foldl addIssue (prs.foldl addPullRequest
              (repos0.foldl (processRepo username) (initAcc dateStr)))) := by
          unfold get_user_activity_yesterday
          rw [hrep, hpr, hiss]
        rw [hs]
        refine ⟨hInv3.2.1, hInv3.2.2, finalize_touched_count _ hInv3.1, ?_⟩
        intro repos hok hnd
        obtain rfl : repos0 = repos := by
          injection hok
        have := hsumA hnd
        rw [show (finalize (issues.foldl addIssue (prs.foldl addPullRequest
            (repos0.foldl (processRepo username) (initAcc dateStr))))).total_commits =
            (issues.foldl addIssue (prs.foldl addPullRequest
              (repos0.foldl (processRepo username) (initAcc dateStr)))).total_commits from rfl]
        rw [show (finalize (issues.foldl addIssue (prs.foldl addPullRequest
            (repos0.foldl (processRepo username) (initAcc dateStr))))).commits =
            (issues.foldl addIssue (prs.foldl addPullRequest
              (repos0.foldl (processRepo username) (initAcc dateStr)))).commits from rfl]
        rw [hC.1, hC.2, hB.1, hB.2]
        exact this

/-- C9, counterexample to the claim as stated: two repositories sharing the
name "dup", each contributing one kept commit, give total_commits = 2 while
the commits dict - whose second assignment overwrote the first - sums to 1. -/
theorem summary_totals_cex :
    (get_user_activity_yesterday
        ⟨Except.ok
            [⟨"dup", "user", Except.ok "admin", Except.ok [⟨"Add search box", "1111222233", "u1"⟩]⟩,
             ⟨"dup", "user", Except.ok "admin", Except.ok [⟨"Improve docs", "4444555566", "u2"⟩]⟩],
          Except.ok [], Except.ok []⟩ "user" "2025-01-01").total_commits = 2 ∧
    (((get_user_activity_yesterday
        ⟨Except.ok
            [⟨"dup", "user", Except.ok "admin", Except.ok [⟨"Add search box", "1111222233", "u1"⟩]⟩,
             ⟨"dup", "user", Except.ok "admin", Except.ok [⟨"Improve docs", "4444555566", "u2"⟩]⟩],
          Except.ok [], Except.ok []⟩ "user" "2025-01-01").commits.map
        (fun p => p.2.length)).sum) = 1 := by
  constructor
  · rfl
  · rfl

end CommitReminder
